import Mathlib

/-!
Shallow embedding of the needleman-wunsch repository (src/needleman_wunsch.py
and src/scoring_scheme.py). Sequences are lists of characters; Python floats
are modelled as rationals; a raised Python exception is an `Except.error`
carrying the exception class.
-/

set_option maxRecDepth 100000

/-- Python exception classes that the embedded code can raise. `fuelOut` is
not a Python exception: it marks exhaustion of the structural bound given to
the backtrace worklist loop (the bound used is always sufficient, so this
case models no real behaviour). -/
inductive PyError where
  | attributeError
  | valueError
  | assertionError
  | keyError
  | indexError
  | typeError
  | fuelOut
deriving DecidableEq, Repr

/-- Python's LookupError is the superclass of KeyError and IndexError only. -/
def PyError.isLookupError : PyError → Bool
  | .keyError => true
  | .indexError => true
  | _ => false

instance {ε α : Type} [DecidableEq ε] [DecidableEq α] : DecidableEq (Except ε α) :=
  fun a b =>
    match a, b with
    | .ok x, .ok y =>
      if h : x = y then .isTrue (by rw [h]) else .isFalse (by intro hc; cases hc; exact h rfl)
    | .error x, .error y =>
      if h : x = y then .isTrue (by rw [h]) else .isFalse (by intro hc; cases hc; exact h rfl)
    | .ok _, .error _ => .isFalse (by intro hc; cases hc)
    | .error _, .ok _ => .isFalse (by intro hc; cases hc)

/-- The state of a `ScoringScheme` object (src/scoring_scheme.py). The fields
set by `__init__` are `match_score`, `mismatch_penalty`, `gap_penalty`,
`gap_start_penalty`, `symbol_to_index` and `scoring_matrix`. The field
`gap_extend_penalty` models the attribute of that name that `__init__` never
assigns: it is `none` unless a caller (such as the CLI's `main`) assigned it,
and reading it while it is `none` raises AttributeError. The dictionary
`symbol_to_index` is modelled as an association list with distinct keys in
insertion order. -/
structure ScoringScheme where
  match_score : ℚ
  mismatch_penalty : ℚ
  gap_penalty : ℚ
  gap_start_penalty : ℚ
  symbol_to_index : Option (List (String × Nat))
  scoring_matrix : Option (List (List ℚ))
  gap_extend_penalty : Option ℚ
deriving DecidableEq, Repr

/-- `ScoringScheme.__init__` with the given keyword values; no scoring matrix
is loaded and `gap_extend_penalty` is never assigned. -/
def ScoringScheme.init (ms mp gp gsp : ℚ) : ScoringScheme :=
  ⟨ms, mp, gp, gsp, none, none, none⟩

/-- `ScoringScheme()` with all keyword defaults:
match 1.0, mismatch -1.0, gap -1.0, gap start 0.0. -/
def defaultScheme : ScoringScheme := ScoringScheme.init 1 (-1) (-1) 0

/-- Python dictionary lookup on the association-list model. -/
def dictLookup (d : List (String × Nat)) (k : String) : Option Nat :=
  (d.find? (fun kv => kv.1 = k)).map (fun kv => kv.2)

/-- Reading `scoring_matrix[row][col]` from a numpy 2-D array: an index out of
range raises IndexError. -/
def matGet (M : List (List ℚ)) (r c : Nat) : Except PyError ℚ :=
  match M.get? r with
  | none => .error .indexError
  | some row =>
    match row.get? c with
    | none => .error .indexError
    | some q => .ok q

/-- The branch of `ScoringScheme.score` taken when neither symbol is a gap
marker: with a loaded scoring matrix, `assert symbol in self.symbol_to_index`
(AssertionError on failure, TypeError if the dictionary is `None`) and then
the matrix entry at the two indices; without a matrix, `match_score` on equal
symbols and `mismatch_penalty` otherwise. -/
def symScore (s : ScoringScheme) (c1 c2 : Char) : Except PyError ℚ :=
  match s.scoring_matrix with
  | some M =>
    match s.symbol_to_index with
    | none => .error .typeError
    | some d =>
      match dictLookup d (String.singleton c1) with
      | none => .error .assertionError
      | some row =>
        match dictLookup d (String.singleton c2) with
        | none => .error .assertionError
        | some col => matGet M row col
  | none => .ok (if c1 = c2 then s.match_score else s.mismatch_penalty)

/-- The loop body of `ScoringScheme.score`, walking the zipped pair list with
the running index `i` and accumulator `acc`. A position with two gap markers
raises ValueError; a position with exactly one gap marker adds `gap_penalty`,
plus `gap_start_penalty` when `i > 0` and the previous symbol on the gapped
side (read from the original sequence, as `sequence[i-1]` in the source) is
not a gap; other positions add the pairwise symbol score. -/
def ScoringScheme.scoreGo (s : ScoringScheme) (seq1 seq2 : List Char) :
    List (Char × Char) → Nat → ℚ → Except PyError ℚ
  | [], _, acc => .ok acc
  | (c1, c2) :: rest, i, acc =>
    if c1 = '-' ∧ c2 = '-' then .error .valueError
    else if c1 = '-' then
      let acc2 := acc + s.gap_penalty +
        (if 0 < i ∧ seq1.getD (i - 1) ' ' ≠ '-' then s.gap_start_penalty else 0)
      s.scoreGo seq1 seq2 rest (i + 1) acc2
    else if c2 = '-' then
      let acc2 := acc + s.gap_penalty +
        (if 0 < i ∧ seq2.getD (i - 1) ' ' ≠ '-' then s.gap_start_penalty else 0)
      s.scoreGo seq1 seq2 rest (i + 1) acc2
    else
      match symScore s c1 c2 with
      | .error e => .error e
      | .ok q => s.scoreGo seq1 seq2 rest (i + 1) (acc + q)

/-- `ScoringScheme.score`: walks `zip(sequence1, sequence2)` left to right
(stopping at the end of the shorter sequence) accumulating from 0.0. -/
def ScoringScheme.score (s : ScoringScheme) (seq1 seq2 : List Char) : Except PyError ℚ :=
  s.scoreGo seq1 seq2 (seq1.zip seq2) 0 0

/-- `scoring_scheme(a, b)` as the engine calls it on two single symbols:
`__call__` delegates to `score` on the two one-character strings. -/
def pairScore (s : ScoringScheme) (c1 c2 : Char) : Except PyError ℚ :=
  s.score [c1] [c2]

/-- Reading `scoring_scheme.gap_extend_penalty`: AttributeError when the
attribute was never assigned. -/
def getGapExtend (s : ScoringScheme) : Except PyError ℚ :=
  match s.gap_extend_penalty with
  | none => .error .attributeError
  | some g => .ok g

/-! ## The alignment engine (src/needleman_wunsch.py) -/

/-- Row 0 of the scoring matrix: `A[0, :] = gap_penalty * np.arange(max_j)`. -/
def row0 (g : ℚ) (n : Nat) : List ℚ :=
  (List.range (n + 1)).map (fun j : ℕ => g * (j : ℚ))

/-- Reading `A[i][j]` from the finished matrix (always in range when the
matrix was built for the two sequences). -/
def matEntry (A : List (List ℚ)) (i j : Nat) : ℚ :=
  (A.getD i []).getD j 0

/-- The inner loop of the matrix construction: the cells `A[i][1..n]` of one
row. `diag` is `A[i-1][j-1]`, `prev` holds `A[i-1][j..]`, `left` is
`A[i][j-1]`, and `cs` the remaining symbols of `sequence2`. Each cell is
`max(A[i-1][j-1] + scheme(seq1[i-1], seq2[j-1]), A[i-1][j] + gap, A[i][j-1] + gap)`;
a raised exception from the scheme aborts the construction. -/
def nwRowGo (s : ScoringScheme) (g : ℚ) (c : Char) :
    ℚ → List ℚ → List Char → ℚ → Except PyError (List ℚ)
  | _, _, [], _ => .ok []
  | diag, up :: prevRest, c2 :: cs, left =>
    match pairScore s c c2 with
    | .error e => .error e
    | .ok p =>
      let cell := max (max (diag + p) (up + g)) (left + g)
      match nwRowGo s g c up prevRest cs cell with
      | .error e => .error e
      | .ok rest => .ok (cell :: rest)
  | _, [], _ :: _, _ => .error .indexError

/-- One full row `A[i][0..n]` for `i ≥ 1`: the border cell `g * i` followed by
the interior cells computed from the previous row. -/
def nwRow (s : ScoringScheme) (g : ℚ) (c : Char) (prev : List ℚ) (first : ℚ)
    (seq2 : List Char) : Except PyError (List ℚ) :=
  match prev with
  | [] => .error .indexError
  | d :: rest =>
    match nwRowGo s g c d rest seq2 first with
    | .error e => .error e
    | .ok cells => .ok (first :: cells)

/-- Rows `i, i+1, ...` of the matrix, one per remaining symbol of
`sequence1`, each built from its predecessor row. -/
def nwRowsGo (s : ScoringScheme) (g : ℚ) (seq2 : List Char) :
    List Char → Nat → List ℚ → Except PyError (List (List ℚ))
  | [], _, _ => .ok []
  | c :: cs, i, prev =>
    match nwRow s g c prev (g * (i : ℚ)) seq2 with
    | .error e => .error e
    | .ok r =>
      match nwRowsGo s g seq2 cs (i + 1) r with
      | .error e => .error e
      | .ok rest => .ok (r :: rest)

/-- The dynamic-programming matrix of `needleman_wunsch`: border row and
column hold cumulative gap costs, interior cells the three-way maximum. -/
def nwMatrix (s : ScoringScheme) (g : ℚ) (seq1 seq2 : List Char) :
    Except PyError (List (List ℚ)) :=
  match nwRowsGo s g seq2 seq1 1 (row0 g seq2.length) with
  | .error e => .error e
  | .ok rs => .ok (row0 g seq2.length :: rs)

/-- One partial alignment of the backtrace worklist:
`(alignment1, alignment2, i, j)`. -/
abbrev BtState := List Char × List Char × Nat × Nat

/-- Processing one worklist entry, exactly as the source's loop body: at
`i == 0` the pair `(alignment1, j * "-" + alignment2)` is completed; at
`j == 0` the pair `(i * "-" + alignment1, alignment2)`; otherwise each of the
three recurrence terms that equals `A[i][j]` (exact equality) pushes one new
partial state toward the matching predecessor cell. -/
def btStep (s : ScoringScheme) (g : ℚ) (A : List (List ℚ)) (seq1 seq2 : List Char)
    (p : BtState) : Except PyError (List (List Char × List Char) × List BtState) :=
  match p with
  | (al1, al2, i, j) =>
    if i = 0 then .ok ([(al1, List.replicate j '-' ++ al2)], [])
    else if j = 0 then .ok ([(List.replicate i '-' ++ al1, al2)], [])
    else
      let c1 := seq1.getD (i - 1) ' '
      let c2 := seq2.getD (j - 1) ' '
      match pairScore s c1 c2 with
      | .error e => .error e
      | .ok pr =>
        let n1 := if matEntry A i j = matEntry A (i - 1) (j - 1) + pr
          then [(c1 :: al1, c2 :: al2, i - 1, j - 1)] else []
        let n2 := if matEntry A i j = matEntry A (i - 1) j + g
          then [(c1 :: al1, '-' :: al2, i - 1, j)] else []
        let n3 := if matEntry A i j = matEntry A i (j - 1) + g
          then [('-' :: al1, c2 :: al2, i, j - 1)] else []
        .ok ([], n1 ++ n2 ++ n3)

/-- One generation of the worklist loop: all entries of `partials` processed
in order, completed alignments and the next worklist collected in order. -/
def btGen (s : ScoringScheme) (g : ℚ) (A : List (List ℚ)) (seq1 seq2 : List Char) :
    List BtState → Except PyError (List (List Char × List Char) × List BtState)
  | [] => .ok ([], [])
  | p :: ps =>
    match btStep s g A seq1 seq2 p with
    | .error e => .error e
    | .ok (d1, n1) =>
      match btGen s g A seq1 seq2 ps with
      | .error e => .error e
      | .ok (d2, n2) => .ok (d1 ++ d2, n1 ++ n2)

/-- The worklist loop `while len(partials) > 0`. Each surviving entry's
`i + j` strictly decreases every generation, so `m + n + 1` generations
always suffice; the structural bound `fuel` makes that termination explicit
and is never exhausted when seeded that way. -/
def btLoop (s : ScoringScheme) (g : ℚ) (A : List (List ℚ)) (seq1 seq2 : List Char) :
    Nat → List BtState → Except PyError (List (List Char × List Char))
  | _, [] => .ok []
  | 0, _ :: _ => .error .fuelOut
  | fuel + 1, ps =>
    match btGen s g A seq1 seq2 ps with
    | .error e => .error e
    | .ok (done, next) =>
      match btLoop s g A seq1 seq2 fuel next with
      | .error e => .error e
      | .ok rest => .ok (done ++ rest)

/-- `needleman_wunsch(sequence1, sequence2, scoring_scheme)`: reads the
`gap_extend_penalty` attribute, builds the matrix, takes the final score from
`A[max_i - 1, max_j - 1]` and enumerates the backtrace alignments. -/
def needleman_wunsch (seq1 seq2 : List Char) (s : ScoringScheme) :
    Except PyError (ℚ × List (List Char × List Char)) :=
  match getGapExtend s with
  | .error e => .error e
  | .ok g =>
    match nwMatrix s g seq1 seq2 with
    | .error e => .error e
    | .ok A =>
      let maxScore := matEntry A seq1.length seq2.length
      match btLoop s g A seq1 seq2 (seq1.length + seq2.length + 1)
          [([], [], seq1.length, seq2.length)] with
      | .error e => .error e
      | .ok als => .ok (maxScore, als)

/-- Deleting every gap marker from one side of an alignment. -/
def removeGaps (l : List Char) : List Char :=
  l.filter (fun c => c ≠ '-')

/-- A default scheme whose `gap_extend_penalty` attribute has been assigned
-1, as the CLI does for `--gap-penalty 1`. -/
def sGapExt1 : ScoringScheme := { defaultScheme with gap_extend_penalty := some (-1) }

/-- A default scheme whose `gap_extend_penalty` attribute has been assigned
-2, as the CLI does for `--gap-penalty 2`. -/
def sGapExt2 : ScoringScheme := { defaultScheme with gap_extend_penalty := some (-2) }

def gattaca : List Char := ['G', 'A', 'T', 'T', 'A', 'C', 'A']

def gcatgcu : List Char := ['G', 'C', 'A', 'T', 'G', 'C', 'U']

/-- The full alignment list returned by the embedded engine on
`GATTACA` / `GCATGCU` with match 1, mismatch -1, engine gap penalty -1. -/
def gattacaAlignments : List (List Char × List Char) :=
  [(['G', '-', 'A', 'T', 'T', 'A', 'C', 'A'], ['G', 'C', 'A', '-', 'T', 'G', 'C', 'U']),
   (['G', '-', 'A', 'T', 'T', 'A', 'C', 'A'], ['G', 'C', 'A', 'T', '-', 'G', 'C', 'U']),
   (['G', '-', 'A', 'T', 'T', 'A', 'C', 'A'], ['G', 'C', 'A', 'T', 'G', '-', 'C', 'U'])]

/-! ## Alignment re-scoring described by the spec (for claim C9) -/

/-- Modelled from the spec's words for claim C9, amended reading: walks the
zipped alignment carrying the previous position's pair; a position with two
gap markers is invalid; a position with exactly one gap marker contributes
`gap_penalty`, plus `gap_start_penalty` exactly when there is a previous
position whose symbol on the gapped side is not itself a gap (so a gap at
position 0 opens no run surcharge); other positions contribute the pairwise
symbol score. -/
def specScoreGo (s : ScoringScheme) : Option (Char × Char) → List (Char × Char) →
    Except PyError ℚ
  | _, [] => .ok 0
  | prev, (c1, c2) :: rest =>
    if c1 = '-' ∧ c2 = '-' then .error .valueError
    else if c1 = '-' then
      match specScoreGo s (some (c1, c2)) rest with
      | .error e => .error e
      | .ok r =>
        .ok (s.gap_penalty +
          (match prev with
           | some pr => if pr.1 ≠ '-' then s.gap_start_penalty else 0
           | none => 0) + r)
    else if c2 = '-' then
      match specScoreGo s (some (c1, c2)) rest with
      | .error e => .error e
      | .ok r =>
        .ok (s.gap_penalty +
          (match prev with
           | some pr => if pr.2 ≠ '-' then s.gap_start_penalty else 0
           | none => 0) + r)
    else
      match symScore s c1 c2 with
      | .error e => .error e
      | .ok q =>
        match specScoreGo s (some (c1, c2)) rest with
        | .error e => .error e
        | .ok r => .ok (q + r)

/-- The spec-side alignment scorer (amended reading), starting with no
previous position. -/
def specScoreAligned (s : ScoringScheme) (a1 a2 : List Char) : Except PyError ℚ :=
  specScoreGo s none (a1.zip a2)

/-- Modelled from claim C9 as literally stated: identical to `specScoreGo`
except that a gap at position 0 (no previous position) counts as the first
gap of a run, so it also receives the `gap_start_penalty` surcharge. Used
only to exhibit that the code disagrees with this reading. -/
def specScoreOpenAtZeroGo (s : ScoringScheme) : Option (Char × Char) →
    List (Char × Char) → Except PyError ℚ
  | _, [] => .ok 0
  | prev, (c1, c2) :: rest =>
    if c1 = '-' ∧ c2 = '-' then .error .valueError
    else if c1 = '-' then
      match specScoreOpenAtZeroGo s (some (c1, c2)) rest with
      | .error e => .error e
      | .ok r =>
        .ok (s.gap_penalty +
          (match prev with
           | some pr => if pr.1 ≠ '-' then s.gap_start_penalty else 0
           | none => s.gap_start_penalty) + r)
    else if c2 = '-' then
      match specScoreOpenAtZeroGo s (some (c1, c2)) rest with
      | .error e => .error e
      | .ok r =>
        .ok (s.gap_penalty +
          (match prev with
           | some pr => if pr.2 ≠ '-' then s.gap_start_penalty else 0
           | none => s.gap_start_penalty) + r)
    else
      match symScore s c1 c2 with
      | .error e => .error e
      | .ok q =>
        match specScoreOpenAtZeroGo s (some (c1, c2)) rest with
        | .error e => .error e
        | .ok r => .ok (q + r)

/-- The claim-as-stated alignment scorer (gap-open surcharge also at
position 0). -/
def specScoreOpenAtZero (s : ScoringScheme) (a1 a2 : List Char) : Except PyError ℚ :=
  specScoreOpenAtZeroGo s none (a1.zip a2)

/-- A default scheme with a non-zero gap-open penalty, distinguishing the
two readings of claim C9. -/
def sOpen5 : ScoringScheme := { defaultScheme with gap_start_penalty := -5 }

/-! ## First-failure analysis of the alignment scorer (for claim C10) -/

/-- The failure a single position of the scorer's walk triggers, if any: two
gap markers raise ValueError; one gap marker never fails; a symbol pair
fails exactly as the pairwise lookup does (TypeError, AssertionError or
IndexError). -/
def failAt (s : ScoringScheme) (pr : Char × Char) : Option PyError :=
  if pr.1 = '-' ∧ pr.2 = '-' then some .valueError
  else if pr.1 = '-' then none
  else if pr.2 = '-' then none
  else
    match symScore s pr.1 pr.2 with
    | .error e => some e
    | .ok _ => none

/-- The first failure the scorer's walk meets along the zipped positions,
if any. -/
def firstFail (s : ScoringScheme) : List (Char × Char) → Option PyError
  | [] => none
  | pr :: rest =>
    match failAt s pr with
    | some e => some e
    | none => firstFail s rest

/-- A scheme with a loaded one-symbol matrix over `{A}`, used to exhibit a
non-ValueError scoring failure. -/
def sMatrixA : ScoringScheme :=
  { defaultScheme with symbol_to_index := some [("A", 0)], scoring_matrix := some [[0]] }

/-! ## Loading a substitution matrix (src/scoring_scheme.py, for claim C8) -/

/-- Python's `str.split()` with no arguments: split on whitespace runs,
discarding empty pieces. -/
def splitWs (l : String) : List String :=
  (l.split (fun c => c.isWhitespace)).filter (fun t => t ≠ "")

/-- One dictionary insertion with Python semantics: an existing key keeps
its position and gets the new value, a new key is appended. -/
def dictInsert (d : List (String × Nat)) (k : String) (v : Nat) : List (String × Nat) :=
  if (d.find? (fun kv => kv.1 = k)).isSome then
    d.map (fun kv => if kv.1 = k then (k, v) else kv)
  else d ++ [(k, v)]

def buildDictGo : List (String × Nat) → Nat → List String → List (String × Nat)
  | d, _, [] => d
  | d, i, t :: ts => buildDictGo (dictInsert d t i) (i + 1) ts

/-- The dict comprehension
`{symbol.strip(): i for i, symbol in enumerate(headline.split())}`
(`split()` already yields stripped tokens). -/
def buildDict (toks : List String) : List (String × Nat) :=
  buildDictGo [] 0 toks

def digitsToNat (cs : List Char) : Nat :=
  cs.foldl (fun a c => 10 * a + (c.toNat - 48)) 0

/-- Python's `float(token)` on the plain decimal forms that matrix files
use: optional sign, digits with at most one decimal point. Scientific
notation and the special values inf/nan are outside this model; the claims
only exercise plain decimals and non-numeric tokens. -/
def parseFloat (tok : String) : Option ℚ :=
  let core := fun (body : List Char) (sign : ℚ) =>
    match body.splitOn '.' with
    | [ip] =>
      if ip ≠ [] ∧ ip.all Char.isDigit then some (sign * (digitsToNat ip : ℚ)) else none
    | [ip, fp] =>
      if (ip ++ fp) ≠ [] ∧ (ip ++ fp).all Char.isDigit then
        some (sign * ((digitsToNat ip : ℚ) + (digitsToNat fp : ℚ) / ((10 : ℚ) ^ fp.length)))
      else none
    | _ => none
  match tok.toList with
  | '-' :: body => core body (-1)
  | '+' :: body => core body 1
  | body => core body 1

/-- The numpy assignment `scoring_matrix[i, j] = v`: IndexError when either
index is out of range. -/
def setEntry (M : List (List ℚ)) (i j : Nat) (v : ℚ) : Except PyError (List (List ℚ)) :=
  if i < M.length then
    if j < (M.getD i []).length then .ok (M.set i ((M.getD i []).set j v))
    else .error .indexError
  else .error .indexError

/-- The inner loop `for j, score in enumerate(row): scoring_matrix[i, j] = float(score)`:
a non-numeric token raises ValueError, an out-of-range column IndexError. -/
def loadRowGo (i : Nat) : List (List ℚ) → Nat → List String → Except PyError (List (List ℚ))
  | M, _, [] => .ok M
  | M, j, tok :: toks =>
    match parseFloat tok with
    | none => .error .valueError
    | some v =>
      match setEntry M i j v with
      | .error e => .error e
      | .ok M2 => loadRowGo i M2 (j + 1) toks

/-- One data line: `row = line.split(); symbol = row.pop(0)` (IndexError on
a blank line), `i = self.symbol_to_index[symbol]` (KeyError when the symbol
is not in the header alphabet), then the score assignments. -/
def loadRow (d : List (String × Nat)) (M : List (List ℚ)) (line : String) :
    Except PyError (List (List ℚ)) :=
  match splitWs line with
  | [] => .error .indexError
  | symbol :: scores =>
    match dictLookup d symbol with
    | none => .error .keyError
    | some i => loadRowGo i M 0 scores

def loadLinesGo (d : List (String × Nat)) : List (List ℚ) → List String →
    Except PyError (List (List ℚ))
  | M, [] => .ok M
  | M, line :: rest =>
    match loadRow d M line with
    | .error e => .error e
    | .ok M2 => loadLinesGo d M2 rest

/-- The comment-skipping loop `while headline[0] == "#"`: reading past the
end of the file yields the empty string, whose `[0]` raises IndexError. -/
def skipComments : List String → Except PyError (String × List String)
  | [] => .error .indexError
  | l :: rest => if l.startsWith "#" then skipComments rest else .ok (l, rest)

/-- `ScoringScheme.load_matrix`, the file given as its list of lines
(without trailing newlines): skip leading comment lines, read the header
alphabet, zero-fill an `n × n` matrix and fill it row by row from the data
lines. -/
def ScoringScheme.load_matrix (s : ScoringScheme) (lines : List String) :
    Except PyError ScoringScheme :=
  match skipComments lines with
  | .error e => .error e
  | .ok (headline, rest) =>
    let d := buildDict (splitWs headline)
    let n := d.length
    match loadLinesGo d (List.replicate n (List.replicate n 0)) rest with
    | .error e => .error e
    | .ok M => .ok { s with symbol_to_index := some d, scoring_matrix := some M }

/-! ## Claim theorems: concrete engine behaviour (C1, C2, C3, C5) -/

/-- C1: every alignment returned by `align` should reconstruct the two input
sequences once gap markers are deleted, the `i == 0` backtrace branch
prepending the gaps to the sequence-1 side and the leading symbols of
sequence 2 to the sequence-2 side. The code instead prepends the gaps to the
sequence-2 side and drops the leading symbols: on `seq1 = ""`, `seq2 = "A"`
with engine gap penalty -1 it returns the single pair `("", "-")`, whose
second side reconstructs `""`, not `"A"`. -/
theorem c1_backtrace_border_bug :
    needleman_wunsch [] ['A'] sGapExt1 = .ok (-1, [([], ['-'])]) ∧
    removeGaps ['-'] = ([] : List Char) ∧
    ([] : List Char) ≠ ['A'] := by
  refine ⟨by with_unfolding_all rfl, by with_unfolding_all rfl, by simp⟩

/-- C2: re-scoring a returned alignment with `ScoringScheme.score` should
reproduce the returned optimal score. On `seq1 = ""`, `seq2 = "A"` with
engine gap penalty -1 the engine returns score -1 with the single pair
`("", "-")`, but re-scoring that pair yields 0 (the zip over the empty first
side scores nothing). -/
theorem c2_rescore_mismatch :
    needleman_wunsch [] ['A'] sGapExt1 = .ok (-1, [([], ['-'])]) ∧
    sGapExt1.score [] ['-'] = .ok 0 ∧
    (0 : ℚ) ≠ -1 := by
  refine ⟨by with_unfolding_all rfl, by with_unfolding_all rfl, by norm_num⟩

/-- C3: `align("", "ABC")` with gap penalty -2 does return score -6 and
exactly one alignment, but that alignment is `("", "---")` (the backtrace
border bug), not the claimed `("---", "ABC")`. -/
theorem c3_empty_vs_abc :
    needleman_wunsch [] ['A', 'B', 'C'] sGapExt2 =
      .ok (-6, [([], ['-', '-', '-'])]) ∧
    (([], ['-', '-', '-']) : List Char × List Char) ≠ (['-', '-', '-'], ['A', 'B', 'C']) := by
  refine ⟨by with_unfolding_all rfl, by simp⟩

/-- C5 counterexample: under the literal default policy (a freshly
constructed `ScoringScheme()`), `align("GATTACA", "GCATGCU")` raises
AttributeError rather than returning score 0; and with the engine gap
penalty attribute assigned -1, the returned alignments all have length 8 and
contain gap markers on both sides, so no length-7 gap-free alignment is
returned either. -/
theorem c5_counterexample :
    needleman_wunsch gattaca gcatgcu defaultScheme = .error .attributeError ∧
    needleman_wunsch gattaca gcatgcu sGapExt1 = .ok (0, gattacaAlignments) ∧
    gattacaAlignments.all
      (fun p => p.1.length = 8 && p.2.length = 8 && p.1.contains '-' && p.2.contains '-')
      = true := by
  refine ⟨by with_unfolding_all rfl, by with_unfolding_all rfl, by with_unfolding_all rfl⟩

/-- C5 amended: the default-constructed policy makes the call fail with
AttributeError; with the engine gap penalty attribute `gap_extend_penalty`
assigned -1 (match 1, mismatch -1), the call returns score 0 and exactly the
three optimal alignments, each of length 8 with one gap marker per side. -/
theorem c5_amended :
    needleman_wunsch gattaca gcatgcu defaultScheme = .error .attributeError ∧
    needleman_wunsch gattaca gcatgcu sGapExt1 = .ok (0, gattacaAlignments) ∧
    gattacaAlignments.length = 3 ∧
    gattacaAlignments.all
      (fun p => p.1.count '-' = 1 && p.2.count '-' = 1 && p.1.length = 8 && p.2.length = 8)
      = true := by
  refine ⟨by with_unfolding_all rfl, by with_unfolding_all rfl, by with_unfolding_all rfl,
    by with_unfolding_all rfl⟩

/-! ## Matrix-shape lemmas for claim C6 -/

lemma row0_length (g : ℚ) (n : Nat) : (row0 g n).length = n + 1 := by
  rw [row0, List.length_map, List.length_range]

lemma row0_getD (g : ℚ) (n j : Nat) (h : j ≤ n) : (row0 g n).getD j 0 = g * (j : ℚ) := by
  rw [row0, List.getD_eq_getElem _ _ (by rw [List.length_map, List.length_range]; omega)]
  rw [List.getElem_map, List.getElem_range]

lemma nwRowGo_spec (s : ScoringScheme) (g : ℚ) (c : Char) (cs : List Char) :
    ∀ (diag : ℚ) (prev : List ℚ) (left : ℚ) (cells : List ℚ),
      nwRowGo s g c diag prev cs left = .ok cells →
      cells.length = cs.length ∧
      ∀ k, k < cs.length →
        ∃ p, pairScore s c (cs.getD k ' ') = .ok p ∧
          cells.getD k 0 =
            max (max ((diag :: prev).getD k 0 + p) (prev.getD k 0 + g))
              ((left :: cells).getD k 0 + g) := by
  induction cs with
  | nil =>
    intro diag prev left cells h
    simp only [nwRowGo] at h
    cases h
    exact ⟨rfl, by intro k hk; exact absurd hk (by simp)⟩
  | cons c2 cs ih =>
    intro diag prev left cells h
    cases prev with
    | nil => simp [nwRowGo] at h
    | cons up prevRest =>
      simp only [nwRowGo] at h
      split at h
      · simp at h
      next p hp =>
        split at h
        · simp at h
        next rest hr =>
          simp only [Except.ok.injEq] at h
          subst h
          obtain ⟨ihlen, ihk⟩ := ih up prevRest (max (max (diag + p) (up + g)) (left + g)) rest hr
          refine ⟨by simp [ihlen], ?_⟩
          intro k hk
          cases k with
          | zero => exact ⟨p, by simpa using hp, by simp⟩
          | succ k =>
            obtain ⟨p2, hp2, he⟩ := ihk k (by simpa using hk)
            exact ⟨p2, by simpa using hp2, by simpa [List.getD_cons_succ] using he⟩

lemma nwRow_shape (s : ScoringScheme) (g : ℚ) (c : Char) (prev : List ℚ) (first : ℚ)
    (seq2 : List Char) (r : List ℚ) (h : nwRow s g c prev first seq2 = .ok r) :
    ∃ d rest cells, prev = d :: rest ∧ r = first :: cells ∧
      nwRowGo s g c d rest seq2 first = .ok cells := by
  cases prev with
  | nil => simp [nwRow] at h
  | cons d rest =>
    simp only [nwRow] at h
    split at h
    · simp at h
    next cells hr =>
      simp only [Except.ok.injEq] at h
      exact ⟨d, rest, cells, rfl, h.symm, hr⟩

lemma nwRowsGo_spec (s : ScoringScheme) (g : ℚ) (seq2 : List Char) (cs : List Char) :
    ∀ (i : Nat) (prev : List ℚ) (rows : List (List ℚ)),
      nwRowsGo s g seq2 cs i prev = .ok rows →
      rows.length = cs.length ∧
      (∀ k, k < cs.length → (rows.getD k []).length = seq2.length + 1) ∧
      (∀ k, k < cs.length →
        nwRow s g (cs.getD k ' ') ((prev :: rows).getD k []) (g * ((i + k : ℕ) : ℚ)) seq2 =
          .ok (rows.getD k [])) := by
  induction cs with
  | nil =>
    intro i prev rows h
    simp only [nwRowsGo] at h
    cases h
    refine ⟨rfl, ?_, ?_⟩ <;> intro k hk <;> exact absurd hk (by simp)
  | cons c cs ih =>
    intro i prev rows h
    simp only [nwRowsGo] at h
    split at h
    · simp at h
    next r hr =>
      split at h
      · simp at h
      next rest hrest =>
        simp only [Except.ok.injEq] at h
        subst h
        obtain ⟨hlen, hlens, hrows⟩ := ih (i + 1) r rest hrest
        refine ⟨by simp [hlen], ?_, ?_⟩
        · intro k hk
          cases k with
          | zero =>
            obtain ⟨d, rst, cells, hprev, hrshape, hgo⟩ := nwRow_shape _ _ _ _ _ _ _ hr
            have hc := (nwRowGo_spec s g c seq2 d rst (g * (i : ℚ)) cells hgo).1
            simp [hrshape, hc]
          | succ k => simpa using hlens k (by simpa using hk)
        · intro k hk
          cases k with
          | zero => simpa using hr
          | succ k =>
            have hnext := hrows k (by simpa using hk)
            simpa [show i + (k + 1) = i + 1 + k by omega] using hnext

/-! ## Claim theorem: border and recurrence of the matrix (C6) -/

/-- C6: under the engine's gap penalty `g` (the `gap_extend_penalty`
attribute), a successfully built matrix has size `(m+1) × (n+1)`, border
row and column `g * j` and `g * i`, every interior cell is the three-way
maximum of the recurrence, and the score returned by `needleman_wunsch` is
the bottom-right cell `A[m][n]`. -/
theorem c6_matrix_recurrence (s : ScoringScheme) (g : ℚ) (seq1 seq2 : List Char)
    (A : List (List ℚ)) (hg : s.gap_extend_penalty = some g)
    (hA : nwMatrix s g seq1 seq2 = .ok A) :
    (A.length = seq1.length + 1 ∧
      ∀ i, i ≤ seq1.length → (A.getD i []).length = seq2.length + 1) ∧
    (∀ j, j ≤ seq2.length → matEntry A 0 j = g * (j : ℚ)) ∧
    (∀ i, i ≤ seq1.length → matEntry A i 0 = g * (i : ℚ)) ∧
    (∀ i j, i < seq1.length → j < seq2.length →
      ∃ p, pairScore s (seq1.getD i ' ') (seq2.getD j ' ') = .ok p ∧
        matEntry A (i + 1) (j + 1) =
          max (max (matEntry A i j + p) (matEntry A i (j + 1) + g))
            (matEntry A (i + 1) j + g)) ∧
    (∀ sc als, needleman_wunsch seq1 seq2 s = .ok (sc, als) →
      sc = matEntry A seq1.length seq2.length) := by
  have hA2 := hA
  rw [nwMatrix] at hA2
  cases hrs : nwRowsGo s g seq2 seq1 1 (row0 g seq2.length) with
  | error e => rw [hrs] at hA2; simp at hA2
  | ok rs =>
    rw [hrs] at hA2
    simp only [Except.ok.injEq] at hA2
    obtain ⟨hlen, hlens, hrows⟩ := nwRowsGo_spec s g seq2 seq1 1 (row0 g seq2.length) rs hrs
    subst hA2
    have hrowAt : ∀ i, i < seq1.length →
        ∃ cells, rs.getD i [] = g * ((1 + i : ℕ) : ℚ) :: cells ∧
          nwRowGo s g (seq1.getD i ' ') (((row0 g seq2.length :: rs).getD i []).getD 0 0)
            (((row0 g seq2.length :: rs).getD i []).drop 1) seq2 (g * ((1 + i : ℕ) : ℚ)) =
            .ok cells := by
      intro i hi
      obtain ⟨d, rst, cells, hprev, hrshape, hgo⟩ := nwRow_shape _ _ _ _ _ _ _ (hrows i hi)
      refine ⟨cells, hrshape, ?_⟩
      rw [hprev]
      simpa using hgo
    refine ⟨⟨by simp [hlen], ?_⟩, ?_, ?_, ?_, ?_⟩
    · intro i hi
      cases i with
      | zero => simpa using row0_length g seq2.length
      | succ k => simpa using hlens k (by omega)
    · intro j hj
      rw [matEntry, List.getD_cons_zero, row0_getD g seq2.length j hj]
    · intro i hi
      cases i with
      | zero => rw [matEntry, List.getD_cons_zero, row0_getD g seq2.length 0 (by omega)]
      | succ k =>
        obtain ⟨cells, hrshape, -⟩ := hrowAt k (by omega)
        rw [matEntry, List.getD_cons_succ, hrshape, List.getD_cons_zero, Nat.add_comm 1 k]
    · intro i j hi hj
      obtain ⟨cells, hrshape, hgo⟩ := hrowAt i hi
      obtain ⟨hclen, hcells⟩ :=
        nwRowGo_spec s g (seq1.getD i ' ') seq2
          (((row0 g seq2.length :: rs).getD i []).getD 0 0)
          (((row0 g seq2.length :: rs).getD i []).drop 1)
          (g * ((1 + i : ℕ) : ℚ)) cells hgo
      obtain ⟨p, hp, he⟩ := hcells j hj
      refine ⟨p, hp, ?_⟩
      have hAi : (row0 g seq2.length :: rs).getD i [] =
          ((row0 g seq2.length :: rs).getD i []).getD 0 0 ::
            ((row0 g seq2.length :: rs).getD i []).drop 1 := by
        have hne : (row0 g seq2.length :: rs).getD i [] ≠ [] := by
          cases i with
          | zero =>
            have := row0_length g seq2.length
            intro hemp
            rw [List.getD_cons_zero] at hemp
            rw [hemp] at this
            simp at this
          | succ k =>
            have := hlens k (by omega)
            intro hemp
            rw [List.getD_cons_succ] at hemp
            rw [hemp] at this
            simp at this
        cases hc : (row0 g seq2.length :: rs).getD i [] with
        | nil => exact absurd hc hne
        | cons x xs => simp
      have e1 : matEntry (row0 g seq2.length :: rs) (i + 1) (j + 1) = cells.getD j 0 := by
        rw [matEntry, List.getD_cons_succ, hrshape, List.getD_cons_succ]
      have e2 : matEntry (row0 g seq2.length :: rs) i j =
          (((row0 g seq2.length :: rs).getD i []).getD 0 0 ::
            ((row0 g seq2.length :: rs).getD i []).drop 1).getD j 0 := by
        rw [matEntry]; rw [← hAi]
      have e3 : matEntry (row0 g seq2.length :: rs) i (j + 1) =
          (((row0 g seq2.length :: rs).getD i []).drop 1).getD j 0 := by
        rw [matEntry]
        conv_lhs => rw [hAi]
        rw [List.getD_cons_succ]
      have e4 : matEntry (row0 g seq2.length :: rs) (i + 1) j =
          (g * ((1 + i : ℕ) : ℚ) :: cells).getD j 0 := by
        rw [matEntry, List.getD_cons_succ, hrshape]
      rw [e1, e2, e3, e4]
      exact he
    · intro sc als h
      rw [needleman_wunsch] at h
      have hge : getGapExtend s = .ok g := by rw [getGapExtend, hg]
      split at h
      next e hge2 => rw [hge] at hge2; simp at hge2
      next g2 hge2 =>
        rw [hge] at hge2
        simp only [Except.ok.injEq] at hge2
        subst hge2
        split at h
        next e hm => rw [hA] at hm; simp at hm
        next A2 hm =>
          rw [hA] at hm
          simp only [Except.ok.injEq] at hm
          subst hm
          split at h
          · simp at h
          next als2 hb =>
            simp only [Except.ok.injEq, Prod.mk.injEq] at h
            exact h.1.symm

/-- C6 witness: the concrete matrix for `"A"` vs `"B"` under match 1,
mismatch -1, engine gap penalty -1. -/
theorem c6_matrix_recurrence_witness :
    sGapExt1.gap_extend_penalty = some (-1) ∧
    nwMatrix sGapExt1 (-1) ['A'] ['B'] = .ok [[0, -1], [-1, -1]] ∧
    (∀ sc als, needleman_wunsch ['A'] ['B'] sGapExt1 = .ok (sc, als) →
      sc = matEntry [[0, -1], [-1, -1]] 1 1) := by
  have h1 : sGapExt1.gap_extend_penalty = some (-1) := by with_unfolding_all rfl
  have h2 : nwMatrix sGapExt1 (-1) ['A'] ['B'] = .ok [[0, -1], [-1, -1]] := by
    with_unfolding_all rfl
  exact ⟨h1, h2, (c6_matrix_recurrence sGapExt1 (-1) ['A'] ['B'] _ h1 h2).2.2.2.2⟩

/-! ## Claim C7: pairwise symbol scoring -/

lemma pairScore_eq_symScore (s : ScoringScheme) (a b : Char) (ha : a ≠ '-') (hb : b ≠ '-') :
    pairScore s a b = symScore s a b := by
  have hz : List.zip [a] [b] = [(a, b)] := rfl
  rw [pairScore, ScoringScheme.score, hz, ScoringScheme.scoreGo]
  rw [if_neg (by rintro ⟨h1, -⟩; exact ha h1), if_neg ha, if_neg hb]
  cases hq : symScore s a b with
  | error e => simp
  | ok q => simp [ScoringScheme.scoreGo]

/-- C7 counterexample: with a loaded substitution matrix over `{A, C}`, a
lookup of the absent symbol `B` fails with AssertionError (from the
`assert symbol in self.symbol_to_index` statement), which is not a
LookupError. -/
theorem c7_counterexample :
    pairScore
      { defaultScheme with
        symbol_to_index := some [("A", 0), ("C", 1)],
        scoring_matrix := some [[2, -1], [-1, 2]] } 'A' 'B' =
      .error .assertionError ∧
    PyError.isLookupError .assertionError = false := by
  exact ⟨by with_unfolding_all rfl, rfl⟩

/-- C7 amended: for non-gap symbols, with a loaded matrix `pairScore`
returns the matrix entry at the two symbol indices when both symbols are
present, and fails with an AssertionError (not a LookupError) when either is
absent; with no matrix it returns `match_score` on equal symbols and
`mismatch_penalty` otherwise. -/
theorem c7_pair_score_amended (s : ScoringScheme) (a b : Char)
    (ha : a ≠ '-') (hb : b ≠ '-') :
    (∀ M d, s.scoring_matrix = some M → s.symbol_to_index = some d →
      (∀ ia ib, dictLookup d (String.singleton a) = some ia →
        dictLookup d (String.singleton b) = some ib →
        pairScore s a b = matGet M ia ib) ∧
      ((dictLookup d (String.singleton a) = none ∨
          dictLookup d (String.singleton b) = none) →
        pairScore s a b = .error .assertionError)) ∧
    (s.scoring_matrix = none →
      pairScore s a b = .ok (if a = b then s.match_score else s.mismatch_penalty)) := by
  have hps := pairScore_eq_symScore s a b ha hb
  constructor
  · intro M d hM hd
    constructor
    · intro ia ib hia hib
      rw [hps]
      simp only [symScore, hM, hd, hia, hib]
    · intro hmiss
      rw [hps]
      rcases hmiss with hm | hm
      · simp only [symScore, hM, hd, hm]
      · cases hia : dictLookup d (String.singleton a) with
        | none => simp only [symScore, hM, hd, hia]
        | some ia => simp only [symScore, hM, hd, hia, hm]
  · intro hM
    rw [hps]
    simp only [symScore, hM]

/-- C7 witness: the spec's own two-symbol example matrix (header `A C`,
rows `A 2 -1` and `C -1 2`): both lookups present give the matrix entry,
here `pairScore('A','C') = -1`. -/
theorem c7_pair_score_amended_witness :
    ('A' : Char) ≠ '-' ∧ ('C' : Char) ≠ '-' ∧
    pairScore
      { defaultScheme with
        symbol_to_index := some [("A", 0), ("C", 1)],
        scoring_matrix := some [[2, -1], [-1, 2]] } 'A' 'C' =
      matGet [[2, -1], [-1, 2]] 0 1 := by
  refine ⟨by decide, by decide, ?_⟩
  exact ((c7_pair_score_amended
    { defaultScheme with
      symbol_to_index := some [("A", 0), ("C", 1)],
      scoring_matrix := some [[2, -1], [-1, 2]] } 'A' 'C'
    (by decide) (by decide)).1 [[2, -1], [-1, 2]] [("A", 0), ("C", 1)] rfl rfl).1 0 1
    (by with_unfolding_all rfl) (by with_unfolding_all rfl)

/-! ## Claim theorem: the unset attribute (C4) -/

/-- C4: `ScoringScheme.__init__` never assigns `gap_extend_penalty`, while
`needleman_wunsch` reads it before building the matrix, so on a freshly
constructed scheme every call fails with AttributeError, for every pair of
sequences and every choice of constructor arguments. -/
theorem c4_missing_gap_extend_attribute (seq1 seq2 : List Char) (ms mp gp gsp : ℚ) :
    (ScoringScheme.init ms mp gp gsp).gap_extend_penalty = none ∧
    needleman_wunsch seq1 seq2 (ScoringScheme.init ms mp gp gsp) =
      .error .attributeError :=
  ⟨rfl, rfl⟩


/-! ## Claim C9: gap-open detection of the standalone scorer -/

lemma scoreGo_eq_specScoreGo (s : ScoringScheme) (seq1 seq2 : List Char) :
    ∀ (rest : List (Char × Char)) (k : Nat) (acc : ℚ),
      rest = (seq1.zip seq2).drop k →
      s.scoreGo seq1 seq2 rest k acc =
        (match specScoreGo s
            (if k = 0 then none else some (seq1.getD (k - 1) ' ', seq2.getD (k - 1) ' '))
            rest with
         | .error e => .error e
         | .ok r => .ok (acc + r)) := by
  intro rest
  induction rest with
  | nil =>
    intro k acc hk
    simp [ScoringScheme.scoreGo, specScoreGo]
  | cons pr rest2 ih =>
    intro k acc hk
    obtain ⟨c1, c2⟩ := pr
    have hhead : (seq1.zip seq2)[k]? = some (c1, c2) := by
      rw [← List.head?_drop, ← hk]
      rfl
    have hparts := (List.getElem?_zip_eq_some).mp hhead
    have hc1 : seq1.getD k ' ' = c1 := by
      rw [List.getD_eq_getElem?_getD, hparts.1]
      rfl
    have hc2 : seq2.getD k ' ' = c2 := by
      rw [List.getD_eq_getElem?_getD, hparts.2]
      rfl
    have hrest2 : rest2 = (seq1.zip seq2).drop (k + 1) := by
      have ht := congrArg List.tail hk
      rw [List.tail_cons, List.tail_drop] at ht
      exact ht
    have hpk : (if k + 1 = 0 then none
        else some (seq1.getD (k + 1 - 1) ' ', seq2.getD (k + 1 - 1) ' '))
        = some (c1, c2) := by
      rw [if_neg (by omega : ¬ k + 1 = 0), Nat.add_sub_cancel, hc1, hc2]
    have hopen1 : (if 0 < k ∧ seq1.getD (k - 1) ' ' ≠ '-' then s.gap_start_penalty else 0) =
        (match (if k = 0 then none
            else some (seq1.getD (k - 1) ' ', seq2.getD (k - 1) ' ')) with
         | some pr => if pr.1 ≠ '-' then s.gap_start_penalty else 0
         | none => (0 : ℚ)) := by
      cases k with
      | zero => simp
      | succ k2 => simp
    have hopen2 : (if 0 < k ∧ seq2.getD (k - 1) ' ' ≠ '-' then s.gap_start_penalty else 0) =
        (match (if k = 0 then none
            else some (seq1.getD (k - 1) ' ', seq2.getD (k - 1) ' ')) with
         | some pr => if pr.2 ≠ '-' then s.gap_start_penalty else 0
         | none => (0 : ℚ)) := by
      cases k with
      | zero => simp
      | succ k2 => simp
    by_cases h12 : c1 = '-' ∧ c2 = '-'
    · simp only [ScoringScheme.scoreGo, specScoreGo, if_pos h12]
    · by_cases hv1 : c1 = '-'
      · simp only [ScoringScheme.scoreGo, specScoreGo, if_neg h12, if_pos hv1]
        rw [ih (k + 1)
          (acc + s.gap_penalty +
            (if 0 < k ∧ seq1.getD (k - 1) ' ' ≠ '-' then s.gap_start_penalty else 0))
          hrest2, hpk]
        cases hres : specScoreGo s (some (c1, c2)) rest2 with
        | error e => simp only [hres]
        | ok r =>
          simp only [hres, Except.ok.injEq]
          rw [hopen1]
          ring
      · by_cases hv2 : c2 = '-'
        · simp only [ScoringScheme.scoreGo, specScoreGo, if_neg h12, if_neg hv1, if_pos hv2]
          rw [ih (k + 1)
            (acc + s.gap_penalty +
              (if 0 < k ∧ seq2.getD (k - 1) ' ' ≠ '-' then s.gap_start_penalty else 0))
            hrest2, hpk]
          cases hres : specScoreGo s (some (c1, c2)) rest2 with
          | error e => simp only [hres]
          | ok r =>
            simp only [hres, Except.ok.injEq]
            rw [hopen2]
            ring
        · simp only [ScoringScheme.scoreGo, specScoreGo, if_neg h12, if_neg hv1, if_neg hv2]
          cases hq : symScore s c1 c2 with
          | error e => simp only [hq]
          | ok q =>
            simp only [hq]
            rw [ih (k + 1) (acc + q) hrest2, hpk]
            cases hres : specScoreGo s (some (c1, c2)) rest2 with
            | error e => simp only [hres]
            | ok r =>
              simp only [hres, Except.ok.injEq]
              ring

/-- C9 counterexample: with gap penalty -1 and gap-open penalty -5, the
claim's reading (a gap at position 0 is the first gap of a run, so it gets
the open surcharge) predicts -6 for the alignment `("-", "A")`, but the code
returns -1: the `i > 0` guard means a position-0 gap never receives the
surcharge. -/
theorem c9_counterexample :
    ScoringScheme.score sOpen5 ['-'] ['A'] = .ok (-1) ∧
    specScoreOpenAtZero sOpen5 ['-'] ['A'] = .ok (-6) ∧
    (Except.ok (-1 : ℚ) : Except PyError ℚ) ≠ .ok (-6) := by
  refine ⟨by with_unfolding_all rfl, by with_unfolding_all rfl, ?_⟩
  intro hc
  have h2 := Except.ok.inj hc
  norm_num at h2

/-- C9 amended: the scorer adds `gap_penalty` at every single-gap position,
plus `gap_start_penalty` exactly when the position has a previous position
(`k > 0`) whose symbol on the gapped side is not itself a gap; a gap at
position 0 receives no open surcharge. This is stated as a refinement: the
code's scorer agrees everywhere with the spec-style scorer that carries the
previous position. -/
theorem c9_gap_open_refinement (s : ScoringScheme) (a1 a2 : List Char) :
    s.score a1 a2 = specScoreAligned s a1 a2 := by
  have h := scoreGo_eq_specScoreGo s a1 a2 (a1.zip a2) 0 0 (by simp)
  have hnone : (if (0 : ℕ) = 0 then (none : Option (Char × Char))
      else some (a1.getD (0 - 1) ' ', a2.getD (0 - 1) ' ')) = none := rfl
  rw [hnone] at h
  rw [ScoringScheme.score, h, specScoreAligned]
  cases hres : specScoreGo s none (a1.zip a2) with
  | error e => simp only [hres]
  | ok r => simp only [hres, zero_add]

/-! ## Claim C10: when the scorer raises ValueError -/

lemma symScore_error_kind (s : ScoringScheme) (a b : Char) (e : PyError)
    (h : symScore s a b = .error e) :
    e = .typeError ∨ e = .assertionError ∨ e = .indexError := by
  simp only [symScore] at h
  split at h
  · split at h
    · left
      exact (Except.error.inj h).symm
    · split at h
      · right; left
        exact (Except.error.inj h).symm
      · split at h
        · right; left
          exact (Except.error.inj h).symm
        · simp only [matGet] at h
          split at h
          · right; right
            exact (Except.error.inj h).symm
          · split at h
            · right; right
              exact (Except.error.inj h).symm
            · exact absurd h (by simp)
  · exact absurd h (by simp)

lemma failAt_valueError_iff (s : ScoringScheme) (pr : Char × Char) :
    failAt s pr = some .valueError ↔ (pr.1 = '-' ∧ pr.2 = '-') := by
  constructor
  · intro h
    by_cases h12 : pr.1 = '-' ∧ pr.2 = '-'
    · exact h12
    · exfalso
      rw [failAt, if_neg h12] at h
      by_cases h1 : pr.1 = '-'
      · rw [if_pos h1] at h
        exact Option.noConfusion h
      · rw [if_neg h1] at h
        by_cases h2 : pr.2 = '-'
        · rw [if_pos h2] at h
          exact Option.noConfusion h
        · rw [if_neg h2] at h
          cases hq : symScore s pr.1 pr.2 with
          | error e =>
            rw [hq] at h
            have he := Option.some.inj h
            rcases symScore_error_kind s pr.1 pr.2 e hq with h3 | h3 | h3 <;>
              rw [h3] at he <;> exact PyError.noConfusion he
          | ok q =>
            rw [hq] at h
            exact Option.noConfusion h
  · intro h12
    rw [failAt, if_pos h12]

lemma scoreGo_error_iff_firstFail (s : ScoringScheme) (seq1 seq2 : List Char) :
    ∀ (rest : List (Char × Char)) (k : Nat) (acc : ℚ) (e : PyError),
      s.scoreGo seq1 seq2 rest k acc = .error e ↔ firstFail s rest = some e := by
  intro rest
  induction rest with
  | nil =>
    intro k acc e
    simp [ScoringScheme.scoreGo, firstFail]
  | cons pr rest2 ih =>
    intro k acc e
    obtain ⟨c1, c2⟩ := pr
    by_cases h12 : c1 = '-' ∧ c2 = '-'
    · have hf : failAt s (c1, c2) = some .valueError := (failAt_valueError_iff s (c1, c2)).mpr h12
      simp only [ScoringScheme.scoreGo, if_pos h12, firstFail, hf]
      constructor
      · intro h
        rw [← Except.error.inj h]
      · intro h
        rw [← Option.some.inj h]
    · by_cases hv1 : c1 = '-'
      · have hf : failAt s (c1, c2) = none := by rw [failAt, if_neg h12, if_pos hv1]
        simp only [ScoringScheme.scoreGo, if_neg h12, if_pos hv1, firstFail, hf]
        exact ih (k + 1) _ e
      · by_cases hv2 : c2 = '-'
        · have hf : failAt s (c1, c2) = none := by
            rw [failAt, if_neg h12, if_neg hv1, if_pos hv2]
          simp only [ScoringScheme.scoreGo, if_neg h12, if_neg hv1, if_pos hv2, firstFail, hf]
          exact ih (k + 1) _ e
        · cases hq : symScore s c1 c2 with
          | error e0 =>
            have hf : failAt s (c1, c2) = some e0 := by
              rw [failAt, if_neg h12, if_neg hv1, if_neg hv2, hq]
            simp only [ScoringScheme.scoreGo, if_neg h12, if_neg hv1, if_neg hv2, hq,
              firstFail, hf]
            constructor
            · intro h
              rw [← Except.error.inj h]
            · intro h
              rw [← Option.some.inj h]
          | ok q =>
            have hf : failAt s (c1, c2) = none := by
              rw [failAt, if_neg h12, if_neg hv1, if_neg hv2, hq]
            simp only [ScoringScheme.scoreGo, if_neg h12, if_neg hv1, if_neg hv2, hq,
              firstFail, hf]
            exact ih (k + 1) _ e

lemma scoreGo_ok_of_firstFail_none (s : ScoringScheme) (seq1 seq2 : List Char) :
    ∀ (rest : List (Char × Char)) (k : Nat) (acc : ℚ),
      firstFail s rest = none →
      ∃ q, s.scoreGo seq1 seq2 rest k acc = .ok q := by
  intro rest
  induction rest with
  | nil =>
    intro k acc _
    exact ⟨acc, rfl⟩
  | cons pr rest2 ih =>
    intro k acc hn
    obtain ⟨c1, c2⟩ := pr
    rw [firstFail] at hn
    cases hf : failAt s (c1, c2) with
    | some e => rw [hf] at hn; exact absurd hn (by simp)
    | none =>
      rw [hf] at hn
      by_cases h12 : c1 = '-' ∧ c2 = '-'
      · rw [failAt, if_pos h12] at hf
        exact absurd hf (by simp)
      · by_cases hv1 : c1 = '-'
        · obtain ⟨q, hq⟩ := ih (k + 1)
            (acc + s.gap_penalty +
              (if 0 < k ∧ seq1.getD (k - 1) ' ' ≠ '-' then s.gap_start_penalty else 0)) hn
          refine ⟨q, ?_⟩
          simp only [ScoringScheme.scoreGo, if_neg h12, if_pos hv1]
          exact hq
        · by_cases hv2 : c2 = '-'
          · obtain ⟨q, hq⟩ := ih (k + 1)
              (acc + s.gap_penalty +
                (if 0 < k ∧ seq2.getD (k - 1) ' ' ≠ '-' then s.gap_start_penalty else 0)) hn
            refine ⟨q, ?_⟩
            simp only [ScoringScheme.scoreGo, if_neg h12, if_neg hv1, if_pos hv2]
            exact hq
          · cases hq : symScore s c1 c2 with
            | error e0 =>
              rw [failAt, if_neg h12, if_neg hv1, if_neg hv2, hq] at hf
              exact absurd hf (by simp)
            | ok q0 =>
              obtain ⟨q, hrec⟩ := ih (k + 1) (acc + q0) hn
              refine ⟨q, ?_⟩
              simp only [ScoringScheme.scoreGo, if_neg h12, if_neg hv1, if_neg hv2, hq]
              exact hrec

lemma firstFail_some_iff (s : ScoringScheme) :
    ∀ (zs : List (Char × Char)) (e : PyError),
      firstFail s zs = some e ↔
        ∃ idx, idx < zs.length ∧ failAt s (zs.getD idx (' ', ' ')) = some e ∧
          ∀ l, l < idx → failAt s (zs.getD l (' ', ' ')) = none := by
  intro zs
  induction zs with
  | nil =>
    intro e
    constructor
    · intro h
      exact absurd h (by simp [firstFail])
    · rintro ⟨idx, hidx, -, -⟩
      exact absurd hidx (by simp)
  | cons pr rest ih =>
    intro e
    rw [firstFail]
    cases hf : failAt s pr with
    | some e0 =>
      constructor
      · intro h
        refine ⟨0, by simp, ?_, by intro l hl; omega⟩
        rw [List.getD_cons_zero, hf]
        exact h
      · rintro ⟨idx, hidx, hsome, hclean⟩
        cases idx with
        | zero =>
          rw [List.getD_cons_zero, hf] at hsome
          exact hsome
        | succ l =>
          have h0 := hclean 0 (by omega)
          rw [List.getD_cons_zero, hf] at h0
          exact absurd h0 (by simp)
    | none =>
      rw [ih e]
      constructor
      · rintro ⟨idx, hidx, hsome, hclean⟩
        refine ⟨idx + 1, by simpa using hidx, by simpa using hsome, ?_⟩
        intro l hl
        cases l with
        | zero => rw [List.getD_cons_zero]; exact hf
        | succ l2 =>
          rw [List.getD_cons_succ]
          exact hclean l2 (by omega)
      · rintro ⟨idx, hidx, hsome, hclean⟩
        cases idx with
        | zero =>
          rw [List.getD_cons_zero, hf] at hsome
          exact absurd hsome (by simp)
        | succ idx2 =>
          rw [List.getD_cons_succ] at hsome
          refine ⟨idx2, by simpa using hidx, hsome, ?_⟩
          intro l hl
          have := hclean (l + 1) (by omega)
          rw [List.getD_cons_succ] at this
          exact this

lemma firstFail_none_iff (s : ScoringScheme) :
    ∀ (zs : List (Char × Char)),
      firstFail s zs = none ↔
        ∀ k, k < zs.length → failAt s (zs.getD k (' ', ' ')) = none := by
  intro zs
  induction zs with
  | nil => simp [firstFail]
  | cons pr rest ih =>
    rw [firstFail]
    cases hf : failAt s pr with
    | some e0 =>
      constructor
      · intro h
        exact absurd h (by simp)
      · intro h
        have h0 := h 0 (by simp)
        rw [List.getD_cons_zero, hf] at h0
        exact absurd h0 (by simp)
    | none =>
      rw [ih]
      constructor
      · intro h k hk
        cases k with
        | zero => rw [List.getD_cons_zero]; exact hf
        | succ k2 => rw [List.getD_cons_succ]; exact h k2 (by simpa using hk)
      · intro h k hk
        have := h (k + 1) (by simpa using hk)
        rw [List.getD_cons_succ] at this
        exact this

/-- C10 counterexample: with a loaded matrix over `{A}`, scoring the
alignment `("B", "B")` has no position with two gap markers, yet the scorer
does not return a numeric score: it fails with AssertionError from the
symbol lookup. -/
theorem c10_counterexample :
    ScoringScheme.score sMatrixA ['B'] ['B'] = .error .assertionError ∧
    (List.zip ['B'] ['B']).all (fun pr => !(pr.1 == '-' && pr.2 == '-')) = true := by
  exact ⟨by with_unfolding_all rfl, by decide⟩

/-- C10 amended: the scorer fails with ValueError exactly when some position
within the common length holds two gap markers and no earlier position
triggers any failure; when no position triggers a failure it returns a
numeric score (when the first failing position is not a double gap, the call
instead fails with that position's error, e.g. AssertionError). -/
theorem c10_value_error_characterization (s : ScoringScheme) (a1 a2 : List Char) :
    (s.score a1 a2 = .error .valueError ↔
      ∃ k, k < (a1.zip a2).length ∧
        ((a1.zip a2).getD k (' ', ' ')).1 = '-' ∧
        ((a1.zip a2).getD k (' ', ' ')).2 = '-' ∧
        ∀ l, l < k → failAt s ((a1.zip a2).getD l (' ', ' ')) = none) ∧
    ((∀ k, k < (a1.zip a2).length → failAt s ((a1.zip a2).getD k (' ', ' ')) = none) →
      ∃ q, s.score a1 a2 = .ok q) := by
  constructor
  · rw [ScoringScheme.score,
      scoreGo_error_iff_firstFail s a1 a2 (a1.zip a2) 0 0 .valueError,
      firstFail_some_iff s (a1.zip a2) .valueError]
    constructor
    · rintro ⟨idx, hidx, hsome, hclean⟩
      have hboth := (failAt_valueError_iff s _).mp hsome
      exact ⟨idx, hidx, hboth.1, hboth.2, hclean⟩
    · rintro ⟨k, hk, h1, h2, hclean⟩
      exact ⟨k, hk, (failAt_valueError_iff s _).mpr ⟨h1, h2⟩, hclean⟩
  · intro hall
    exact scoreGo_ok_of_firstFail_none s a1 a2 (a1.zip a2) 0 0
      ((firstFail_none_iff s (a1.zip a2)).mpr hall)

/-! ## Claim C8: loading a malformed substitution matrix -/

/-- C8 counterexample: a data row with fewer score entries than the
alphabet size (header `A C`, single row `A 2`) is accepted without any
error: the missing entries (and the whole missing `C` row) silently stay
zero, so a row/column count mismatch does not fail at load time. -/
theorem c8_counterexample :
    defaultScheme.load_matrix ["A C", "A 2"] =
      .ok { defaultScheme with
            symbol_to_index := some [("A", 0), ("C", 1)],
            scoring_matrix := some [[2, 0], [0, 0]] } := by
  with_unfolding_all rfl

/-- C8 amended: `load_matrix` fails at load time with Python built-in
errors — KeyError when a data line's leading symbol is not in the header
alphabet, ValueError on a non-numeric score entry, IndexError on a missing
header (empty file or comments only) and on a row with more entries than
the alphabet size — but there is no ParseError type, and a row with fewer
entries than the alphabet (or missing rows) is silently zero-filled, while
a well-formed file loads its dictionary and matrix. -/
theorem c8_load_failures :
    defaultScheme.load_matrix ["A C", "B 1 2"] = .error .keyError ∧
    defaultScheme.load_matrix ["A C", "A x 2"] = .error .valueError ∧
    defaultScheme.load_matrix [] = .error .indexError ∧
    defaultScheme.load_matrix ["# comment only"] = .error .indexError ∧
    defaultScheme.load_matrix ["A C", "A 1 2 3"] = .error .indexError ∧
    defaultScheme.load_matrix ["A C", "A 2"] =
      .ok { defaultScheme with
            symbol_to_index := some [("A", 0), ("C", 1)],
            scoring_matrix := some [[2, 0], [0, 0]] } ∧
    defaultScheme.load_matrix ["# hi", "A C", "A 1.5 -2", "C -2 3"] =
      .ok { defaultScheme with
            symbol_to_index := some [("A", 0), ("C", 1)],
            scoring_matrix := some [[3 / 2, -2], [-2, 3]] } := by
  refine ⟨?_, ?_, ?_, ?_, ?_, ?_, ?_⟩ <;> with_unfolding_all rfl
